import Mathlib

/-!
Verification of the Job-Scout analysis server (`src/server.ts`).

The server code is shallowly embedded: each helper of `server.ts` becomes a
Lean definition over explicit inputs.  External collaborators (the Gemini
completion service, the Apify listing provider, the filesystem) are modelled
as explicit parameters: the scoring call becomes an oracle function
`Job → Except String ScoreResult` (an `Except.error` is a thrown/rejected
promise), the poll loop consumes a list of statuses returned by successive
status requests, and the uploaded file becomes a boolean plus an event trace.
JavaScript string truthiness (`undefined`/`null`/`""` are falsy) is modelled
by `truthy` on `Option String`.
-/

namespace JobScout

/-- JS truthiness for string-valued fields: `undefined`/`null` (`none`) and
the empty string are falsy, every other string is truthy. -/
def truthy : Option String → Bool
  | none => false
  | some s => !(s == "")

/-- `a || d` for a string field with a string default. -/
def resolve1 (a : Option String) (d : String) : String :=
  if truthy a then a.getD d else d

/-- `a || b || d` for two alias keys with a string default, as used
throughout `normalizeJobData`. -/
def resolve2 (a b : Option String) (d : String) : String :=
  if truthy a then a.getD d else if truthy b then b.getD d else d

/-- `a || b || null` for the nullable `companyLogo` field. -/
def resolveOpt (a b : Option String) : Option String :=
  if truthy a then a else if truthy b then b else none

/-- A raw listing record from the scraping provider (`rawJob` in
`normalizeJobData`): an open mapping with several possible alias keys,
every field possibly absent. -/
structure RawListing where
  id : Option String
  jobId : Option String
  companyName : Option String
  company : Option String
  companyLogo : Option String
  logo : Option String
  title : Option String
  jobTitle : Option String
  url : Option String
  jobUrl : Option String
  applyUrl : Option String
  description : Option String
  text : Option String
  postedAt : Option String
deriving DecidableEq

/-- The raw listing with every field missing (`{}`). -/
def emptyRawListing : RawListing :=
  { id := none, jobId := none, companyName := none, company := none,
    companyLogo := none, logo := none, title := none, jobTitle := none,
    url := none, jobUrl := none, applyUrl := none, description := none, text := none,
    postedAt := none }

/-- A job identifier: either taken from the source record or generated by
`uuidv4()`.  Generated identifiers are modelled as draws from a fresh
counter; uuid v4 values are assumed never to collide with source-provided
ids (their probabilistic contract). -/
inductive JobId where
  | given (s : String)
  | uuid (n : Nat)
deriving DecidableEq

/-- The canonical Job shape produced by `normalizeJobData`
(cf. `types.ts`, score/verdict attached later by the scorer). -/
structure Job where
  jobId : JobId
  companyName : String
  companyLogo : Option String
  jobTitle : String
  jobUrl : String
  applyUrl : String
  description : String
  scrapedAt : String
deriving DecidableEq

/-- The id resolution `rawJob.id || rawJob.jobId` (before the `uuidv4()`
fallback): the source-provided identifier, when one exists. -/
def providedId (rawJob : RawListing) : Option String :=
  if truthy rawJob.id then rawJob.id
  else if truthy rawJob.jobId then rawJob.jobId
  else none

/-- `normalizeJobData` from `server.ts`.  `fresh` is the next value of the
uuid supply and `today` is `new Date().toISOString().split('T')[0]`.
Field for field:
`jobId: rawJob.id || rawJob.jobId || uuidv4()`,
`companyName: rawJob.companyName || rawJob.company || "Unknown Company"`,
`companyLogo: rawJob.companyLogo || rawJob.logo || null`,
`jobTitle: rawJob.title || rawJob.jobTitle || "Untitled Role"`,
`jobUrl: rawJob.url || rawJob.jobUrl || ""`,
`applyUrl: rawJob.applyUrl || rawJob.url || ""`,
`description: rawJob.description || rawJob.text || ""`,
`scrapedAt: rawJob.postedAt || today`. -/
def normalizeJobData (fresh : Nat) (today : String) (rawJob : RawListing) : Job :=
  { jobId :=
      match providedId rawJob with
      | some s => JobId.given s
      | none => JobId.uuid fresh
  , companyName := resolve2 rawJob.companyName rawJob.company "Unknown Company"
  , companyLogo := resolveOpt rawJob.companyLogo rawJob.logo
  , jobTitle := resolve2 rawJob.title rawJob.jobTitle "Untitled Role"
  , jobUrl := resolve2 rawJob.url rawJob.jobUrl ""
  , applyUrl := resolve2 rawJob.applyUrl rawJob.url ""
  , description := resolve2 rawJob.description rawJob.text ""
  , scrapedAt := resolve1 rawJob.postedAt today }

/-- `rawJobs.map(normalizeJobData)`: each call to `normalizeJobData` draws
the next value from the uuid supply, modelled by threading the counter. -/
def normalizeJobs (fresh : Nat) (today : String) : List RawListing → List Job
  | [] => []
  | r :: rs => normalizeJobData fresh today r :: normalizeJobs (fresh + 1) today rs

/-! ### Text extraction (`extractText`) -/

/-- JavaScript `s.includes(pattern)`: substring containment. -/
def strIncludes (s pattern : String) : Bool :=
  decide (pattern.toList <:+: s.toList)

/-- The branch of `extractText` that picks the decoder by mime type:
`application/pdf` goes to `pdf-parse`, a mime type containing `word` or
`officedocument` goes to `mammoth.extractRawText`, anything else to
`buffer.toString('utf-8')`.  Each decoder's outcome on the uploaded buffer
is an explicit `Except` parameter (an `Except.error` is a thrown
exception/rejected promise carrying the internal parser error). -/
def selectDecoder (mimeType : String) (pdfDecode wordDecode utf8Decode : Except String String) :
    Except String String :=
  if mimeType == "application/pdf" then pdfDecode
  else if strIncludes mimeType "word" || strIncludes mimeType "officedocument" then wordDecode
  else utf8Decode

/-- `extractText` from `server.ts`: the whole decode runs inside
`try { ... } catch (error) { throw new Error("Failed to parse CV file.") }`.
(The initial `fs.readFileSync` sits outside the `try`; the buffer it yields
is implicit in the decoder parameters.) -/
def extractText (mimeType : String) (pdfDecode wordDecode utf8Decode : Except String String) :
    Except String String :=
  match selectDecoder mimeType pdfDecode wordDecode utf8Decode with
  | .ok text => .ok text
  | .error _ => .error "Failed to parse CV file."

/-! ### The listing source adapter (`scrapeLinkedInJobs`) -/

/-- The JSON body of the Apify start call in `scrapeLinkedInJobs`:
`{ startUrls: [{url: searchUrl}], maxItems: Math.min(maxItems, 100),
limit: Math.min(maxItems, 100) }`. -/
structure StartRunBody where
  startUrls : List String
  maxItems : Int
  limit : Int
deriving DecidableEq

/-- The start-call body built by `scrapeLinkedInJobs` (hard cap at 100). -/
def startRunBody (searchUrl : String) (maxItems : Int) : StartRunBody :=
  { startUrls := [searchUrl]
  , maxItems := min maxItems 100
  , limit := min maxItems 100 }

/-- The poll loop of `scrapeLinkedInJobs`:
`while (status === 'RUNNING' || status === 'READY') { await delay(5000);
status = poll(); }`.  `polls` is the list of statuses returned by the
successive poll requests; the result is the number of 5-second delays
performed together with the final status, or `none` when the supplied poll
responses run out while the status is still non-terminal (the real loop
would keep polling). -/
def pollRunLoop : List String → String → Nat → Option (Nat × String)
  | [], status, delays =>
      if status == "RUNNING" || status == "READY" then none
      else some (delays, status)
  | p :: ps, status, delays =>
      if status == "RUNNING" || status == "READY" then pollRunLoop ps p (delays + 1)
      else some (delays, status)

/-- The interval of the poll loop, in milliseconds (`setTimeout(r, 5000)`). -/
def pollIntervalMs : Nat := 5000

/-- The outcome of `scrapeLinkedInJobs` after the start call succeeded:
the loop starts from the hardcoded local `status = 'RUNNING'`; on a final
status other than `SUCCEEDED` the function throws
`Apify run failed with status: <status>`, otherwise it returns the dataset
`items`.  The delay count is kept alongside the outcome. -/
def pollOutcome (polls : List String) (items : List RawListing) :
    Option (Nat × Except String (List RawListing)) :=
  match pollRunLoop polls "RUNNING" 0 with
  | none => none
  | some (delays, status) =>
      some (delays,
        if status == "SUCCEEDED" then .ok items
        else .error ("Apify run failed with status: " ++ status))

/-- `scrapeLinkedInJobs` with its network interactions made explicit: the
body sent by the start call, and the poll-loop outcome. -/
def scrapeLinkedInJobs (searchUrl : String) (maxItems : Int) (polls : List String)
    (items : List RawListing) :
    StartRunBody × Option (Nat × Except String (List RawListing)) :=
  (startRunBody searchUrl maxItems, pollOutcome polls items)

/-! ### CV/job analysis (`analyzeCvAndJobs`) -/

/-- The structured profile parsed from the CV (`cvData`). -/
structure CvProfile where
  skills : List String
  profileSummary : String
  experienceHighlights : List String
deriving DecidableEq

/-- The structured completion returned by one scoring call
(`{score: number, verdict: string}`).  Scores are numbers; only their
ordering matters here, so they are modelled as integers. -/
structure ScoreResult where
  score : Int
  verdict : String
deriving DecidableEq

/-- `{...job, ...result}`: a job augmented with its score and verdict. -/
structure ScoredJob where
  job : Job
  score : Int
  verdict : String
deriving DecidableEq

/-- The value returned by `analyzeCvAndJobs` (`{...cvData, jobs}`). -/
structure AnalyzedResponse where
  skills : List String
  profileSummary : String
  experienceHighlights : List String
  jobs : List ScoredJob
deriving DecidableEq

/-- `chunkArray` from `server.ts`:
`arr.length > size ? [arr.slice(0, size), ...chunkArray(arr.slice(size), size)] : [arr]`.
The JS recursion consumes `size ≥ 1` elements per step, so `arr.length`
steps always suffice; the fuel makes the recursion structural.  (For
`size = 0` the JS recursion would not terminate; the program only ever
calls it with `size = 5`.) -/
def chunkArrayAux (size : Nat) : Nat → List α → List (List α)
  | 0, arr => [arr]
  | fuel + 1, arr =>
      if size < arr.length then arr.take size :: chunkArrayAux size fuel (arr.drop size)
      else [arr]

/-- `chunkArray(arr, size)`. -/
def chunkArray (arr : List α) (size : Nat) : List (List α) :=
  chunkArrayAux size arr.length arr

/-- The per-job closure inside the scoring loop: the completion call and
JSON parse are the `oracle` (an `Except.error` is any thrown exception —
network, parse, schema mismatch — which the `catch` turns into `null`);
on success the job is kept iff `result.score >= threshold`. -/
def scoreJob (oracle : Job → Except String ScoreResult) (threshold : Int) (job : Job) :
    Option ScoredJob :=
  match oracle job with
  | .ok result =>
      if result.score ≥ threshold then
        some { job := job, score := result.score, verdict := result.verdict }
      else none
  | .error _ => none

/-- The `scoredJobs` accumulator after the `for (const chunk of chunks)`
loop: per chunk the five concurrent promises are awaited together
(`Promise.all`) and the non-null results are appended. -/
def scoredJobsOf (oracle : Job → Except String ScoreResult) (threshold : Int)
    (jobs : List Job) : List ScoredJob :=
  ((chunkArray jobs 5).map fun chunk => (chunk.map (scoreJob oracle threshold)).filterMap id).flatten

/-- Stable insertion of a job into a list already sorted by descending
score: the element being inserted originates earlier in the input order,
so on ties it stays in front (ES2019 `Array.prototype.sort` is stable). -/
def insertDesc (x : ScoredJob) : List ScoredJob → List ScoredJob
  | [] => [x]
  | y :: ys => if y.score ≤ x.score then x :: y :: ys else y :: insertDesc x ys

/-- `scoredJobs.sort((a, b) => b.score - a.score)`: a stable sort into
non-increasing score order. -/
def sortByScoreDesc : List ScoredJob → List ScoredJob
  | [] => []
  | x :: xs => insertDesc x (sortByScoreDesc xs)

/-- `analyzeCvAndJobs(cvText, jobs, threshold)` from `server.ts`, with the
completion service made explicit: `cvData` is the profile parsed from the
CV by the first Gemini call, and `oracle` gives each scoring call's
outcome.  The body chunks the jobs 5 at a time, scores each chunk,
drops failures and below-threshold jobs, and returns
`{...cvData, jobs: scoredJobs.sort((a, b) => b.score - a.score)}`. -/
def analyzeCvAndJobs (oracle : Job → Except String ScoreResult) (cvData : CvProfile)
    (jobs : List Job) (threshold : Int) : AnalyzedResponse :=
  { skills := cvData.skills
  , profileSummary := cvData.profileSummary
  , experienceHighlights := cvData.experienceHighlights
  , jobs := sortByScoreDesc (scoredJobsOf oracle threshold jobs) }

/-! ### The `/api/analyze` endpoint -/

/-- `parseInt(field) || d`, as applied to `maxJobs` and `scoreThreshold`:
an absent or non-numeric field parses to `NaN` (modelled `none`) and falls
back to the default, and — because `0` is falsy in JavaScript — a supplied
`0` falls back to the default as well. -/
def effectiveParam (supplied : Option Int) (d : Int) : Int :=
  match supplied with
  | none => d
  | some v => if v == 0 then d else v

/-- The `maxJobs` value passed to `scrapeLinkedInJobs`. -/
def effectiveMaxJobs (supplied : Option Int) : Int :=
  effectiveParam supplied 50

/-- The `threshold` value passed to `analyzeCvAndJobs`. -/
def effectiveScoreThreshold (supplied : Option Int) : Int :=
  effectiveParam supplied 60

/-- Observable events of one `/api/analyze` request: removal of the
uploaded temp file (`fs.unlinkSync(file.path)`) and sending the HTTP
response with a status code. -/
inductive Ev where
  | unlink
  | respond (code : Nat)
deriving DecidableEq

/-- Request-handler state: events so far, and whether the uploaded CV
temp file currently exists on disk. -/
structure HandlerState where
  events : List Ev
  cvFileExists : Bool
deriving DecidableEq

/-- `fs.unlinkSync(file.path)`. -/
def unlinkSync (s : HandlerState) : HandlerState :=
  { events := s.events ++ [Ev.unlink], cvFileExists := false }

/-- `res.status(code).json(...)` / `res.json(...)` (status 200). -/
def sendResponse (code : Nat) (s : HandlerState) : HandlerState :=
  { s with events := s.events ++ [Ev.respond code] }

/-- The `/api/analyze` handler as an event trace.  `fileUploaded` is
whether multer attached `req.file` (which writes the CV to a temp file);
the three `Except` parameters are the outcomes of the awaited pipeline
stages (`extractText`, `scrapeLinkedInJobs`, `analyzeCvAndJobs` — an
`Except.error` is a thrown exception/rejection).  The body mirrors
`try { ...; fs.unlinkSync(file.path); res.json(result) } catch (error)
{ if (file && fs.existsSync(file.path)) fs.unlinkSync(file.path);
res.status(502).json(...) }`, after the early
`if (!file) return res.status(400)...`. -/
def analyzeEndpointTrace (fileUploaded : Bool) (extractRes : Except String String)
    (scrapeRes : Except String (List RawListing))
    (analysisRes : Except String AnalyzedResponse) : HandlerState :=
  let s0 : HandlerState := { events := [], cvFileExists := fileUploaded }
  if !fileUploaded then sendResponse 400 s0
  else
    let tryBlock : Except String AnalyzedResponse := do
      let _ ← extractRes
      let _ ← scrapeRes
      analysisRes
    match tryBlock with
    | .ok _ => sendResponse 200 (unlinkSync s0)
    | .error _ => sendResponse 502 (if s0.cvFileExists then unlinkSync s0 else s0)

/-! ### Sample inputs used by witnesses -/

/-- A concrete normalized job. -/
def sampleJob : Job :=
  { jobId := JobId.uuid 0, companyName := "Acme", companyLogo := none,
    jobTitle := "Backend Engineer", jobUrl := "https://example.com/job/9",
    applyUrl := "https://example.com/job/9", description := "Go services",
    scrapedAt := "2026-01-01" }

/-- A concrete CV profile. -/
def sampleCv : CvProfile :=
  { skills := ["go"], profileSummary := "backend engineer",
    experienceHighlights := ["built services"] }

/-- A scoring oracle that always succeeds with score 75. -/
def goodOracle : Job → Except String ScoreResult :=
  fun _ => .ok { score := 75, verdict := "good fit" }

/-- A raw listing whose source id is `dup-1`. -/
def dupIdListing : RawListing :=
  { emptyRawListing with id := some "dup-1" }

/-- A raw listing that provides the job URL only under the `jobUrl` alias
key, and no `applyUrl`. -/
def jobUrlAliasOnlyListing : RawListing :=
  { emptyRawListing with jobUrl := some "https://example.com/job/1" }

/-- A raw listing that provides the job URL under the `url` key and no
`applyUrl`. -/
def urlOnlyListing : RawListing :=
  { emptyRawListing with url := some "https://example.com/job/2" }

/-! ## Helper lemmas -/

theorem chunkArrayAux_flatten (size : Nat) (fuel : Nat) (arr : List α) :
    (chunkArrayAux size fuel arr).flatten = arr := by
  induction fuel generalizing arr with
  | zero => simp [chunkArrayAux]
  | succ fuel ih =>
      by_cases h : size < arr.length
      · simp [chunkArrayAux, h, ih]
      · simp [chunkArrayAux, h]

theorem chunkArray_flatten (arr : List α) (size : Nat) :
    (chunkArray arr size).flatten = arr :=
  chunkArrayAux_flatten size arr.length arr

theorem flatten_map_filterMap (f : α → Option β) (L : List (List α)) :
    (L.map fun c => c.filterMap f).flatten = L.flatten.filterMap f := by
  induction L with
  | nil => simp
  | cons c L ih => simp only [List.map_cons, List.flatten_cons, List.filterMap_append, ih]

/-- The chunked scoring loop computes a plain `filterMap` over the input
order: chunking 5 at a time then concatenating preserves both membership
and order. -/
theorem scoredJobsOf_eq (oracle : Job → Except String ScoreResult) (threshold : Int)
    (jobs : List Job) :
    scoredJobsOf oracle threshold jobs = jobs.filterMap (scoreJob oracle threshold) := by
  simp [scoredJobsOf, flatten_map_filterMap, chunkArray_flatten]

theorem mem_insertDesc {x z : ScoredJob} {l : List ScoredJob} :
    z ∈ insertDesc x l ↔ z = x ∨ z ∈ l := by
  induction l with
  | nil => simp [insertDesc]
  | cons y ys ih =>
      simp only [insertDesc]
      by_cases h : y.score ≤ x.score
      · simp [h, List.mem_cons]
      · simp only [h, if_false, List.mem_cons, ih]
        tauto

theorem mem_sortByScoreDesc {z : ScoredJob} {l : List ScoredJob} :
    z ∈ sortByScoreDesc l ↔ z ∈ l := by
  induction l with
  | nil => simp [sortByScoreDesc]
  | cons x xs ih => simp [sortByScoreDesc, mem_insertDesc, ih]

theorem pairwise_insertDesc (x : ScoredJob) {l : List ScoredJob}
    (h : l.Pairwise fun a b => b.score ≤ a.score) :
    (insertDesc x l).Pairwise fun a b => b.score ≤ a.score := by
  induction l with
  | nil => simp [insertDesc]
  | cons y ys ih =>
      rcases List.pairwise_cons.mp h with ⟨hy, hys⟩
      simp only [insertDesc]
      by_cases hxy : y.score ≤ x.score
      · rw [if_pos hxy]
        refine List.pairwise_cons.mpr ⟨?_, h⟩
        intro z hz
        rcases List.mem_cons.mp hz with rfl | hz
        · exact hxy
        · exact le_trans (hy z hz) hxy
      · rw [if_neg hxy]
        refine List.pairwise_cons.mpr ⟨?_, ih hys⟩
        intro z hz
        rcases mem_insertDesc.mp hz with rfl | hz
        · exact le_of_lt (lt_of_not_le hxy)
        · exact hy z hz

theorem pairwise_sortByScoreDesc (l : List ScoredJob) :
    (sortByScoreDesc l).Pairwise fun a b => b.score ≤ a.score := by
  induction l with
  | nil => simp [sortByScoreDesc]
  | cons x xs ih => exact pairwise_insertDesc x ih

/-- Anatomy of a kept scored job: it wraps the scored input job, meets the
threshold, and carries exactly the oracle's score and verdict. -/
theorem scoreJob_eq_some {oracle : Job → Except String ScoreResult} {t : Int} {job : Job}
    {e : ScoredJob} (h : scoreJob oracle t job = some e) :
    e.job = job ∧ t ≤ e.score ∧ oracle job = .ok { score := e.score, verdict := e.verdict } := by
  cases hoa : oracle job with
  | error m => simp [scoreJob, hoa] at h
  | ok r =>
      simp only [scoreJob, hoa] at h
      by_cases hsc : r.score ≥ t
      · rw [if_pos hsc] at h
        injection h with h
        subst h
        exact ⟨rfl, hsc, rfl⟩
      · rw [if_neg hsc] at h
        exact absurd h (by simp)

/-- Failing the oracle on exactly the job `k` removes precisely the
occurrences of `k` from the scored stream. -/
theorem filterMap_scoreJob_single_error (oracle : Job → Except String ScoreResult)
    (t : Int) (k : Job) (msg : String) (jobs : List Job) :
    jobs.filterMap (scoreJob (fun j => if j = k then .error msg else oracle j) t)
      = (jobs.filter fun j => decide (j ≠ k)).filterMap (scoreJob oracle t) := by
  induction jobs with
  | nil => simp
  | cons j js ih =>
      by_cases hj : j = k
      · subst hj
        simp [List.filterMap_cons, List.filter_cons, scoreJob, ih]
      · cases hoj : oracle j with
        | error m =>
            simp [List.filterMap_cons, List.filter_cons, scoreJob, hoj, hj, ih]
        | ok r =>
            simp [List.filterMap_cons, List.filter_cons, scoreJob, hoj, hj, ih]

/-- Every jobId produced by `normalizeJobs` is either a source-provided id
occurring in `raws` or a uuid drawn at or after the starting counter. -/
theorem jobId_shape_of_mem (today : String) (raws : List RawListing) :
    ∀ (fresh : Nat) (j : Job), j ∈ normalizeJobs fresh today raws →
      (∃ s, s ∈ raws.filterMap providedId ∧ j.jobId = JobId.given s) ∨
      (∃ m, fresh ≤ m ∧ j.jobId = JobId.uuid m) := by
  induction raws with
  | nil => intro fresh j hj; simp [normalizeJobs] at hj
  | cons r rs ih =>
      intro fresh j hj
      simp only [normalizeJobs] at hj
      rcases List.mem_cons.mp hj with rfl | hj
      · cases hp : providedId r with
        | some s =>
            left
            exact ⟨s, List.mem_filterMap.mpr ⟨r, List.mem_cons_self r rs, hp⟩,
              by simp [normalizeJobData, hp]⟩
        | none =>
            right
            exact ⟨fresh, le_refl fresh, by simp [normalizeJobData, hp]⟩
      · rcases ih (fresh + 1) j hj with ⟨s, hs, hid⟩ | ⟨m, hm, hid⟩
        · left
          rcases List.mem_filterMap.mp hs with ⟨a, ha, hpa⟩
          exact ⟨s, List.mem_filterMap.mpr ⟨a, List.mem_cons_of_mem r ha, hpa⟩, hid⟩
        · right
          exact ⟨m, le_trans (Nat.le_succ fresh) hm, hid⟩

/-! ## Claim theorems -/

/-- C1: for every analysis request with caller-specified threshold
`threshold`, every job in the returned `AnalyzedResponse` has
`score ≥ threshold`, and no job the scorer scored below `threshold`
appears in the response (it is dropped entirely, not retained). -/
theorem responseJobsMeetThreshold (oracle : Job → Except String ScoreResult)
    (cvData : CvProfile) (jobs : List Job) (threshold : Int) :
    (∀ e ∈ (analyzeCvAndJobs oracle cvData jobs threshold).jobs, threshold ≤ e.score) ∧
    (∀ j r, oracle j = .ok r → r.score < threshold →
      ∀ e ∈ (analyzeCvAndJobs oracle cvData jobs threshold).jobs, e.job ≠ j) := by
  have hmem : ∀ e, e ∈ (analyzeCvAndJobs oracle cvData jobs threshold).jobs →
      ∃ a ∈ jobs, scoreJob oracle threshold a = some e := by
    intro e he
    simp only [analyzeCvAndJobs, scoredJobsOf_eq] at he
    exact List.mem_filterMap.mp (mem_sortByScoreDesc.mp he)
  constructor
  · intro e he
    rcases hmem e he with ⟨a, -, ha⟩
    exact (scoreJob_eq_some ha).2.1
  · intro j r hj hr e he hej
    rcases hmem e he with ⟨a, -, ha⟩
    rcases scoreJob_eq_some ha with ⟨hja, hsc, hok⟩
    rw [hja] at hej
    subst hej
    rw [hj] at hok
    injection hok with hok
    have hscore : r.score = e.score := by rw [hok]
    rw [hscore] at hr
    exact absurd hsc (not_le.mpr hr)

/-- Witness for C1 at a concrete request: one job scored 75 against
threshold 60 appears in the response and meets the threshold. -/
theorem responseJobsMeetThresholdWitness :
    (60 : Int) ≤ (ScoredJob.mk sampleJob 75 "good fit").score :=
  (responseJobsMeetThreshold goodOracle sampleCv [sampleJob] 60).1
    (ScoredJob.mk sampleJob 75 "good fit") (by decide)

/-- C2: a scoring exception on exactly the job `k` (simulated provider
error) produces the same response as scoring the request without `k`:
only `k` is dropped, every other job in its batch of 5 and in the other
batches is scored and returned normally, and the request as a whole still
returns (the function is total — a single failure never aborts it). -/
theorem singleScoringFailureDropsOnlyThatJob (oracle : Job → Except String ScoreResult)
    (cvData : CvProfile) (jobs : List Job) (threshold : Int) (k : Job) (msg : String) :
    analyzeCvAndJobs (fun j => if j = k then .error msg else oracle j) cvData jobs threshold
      = analyzeCvAndJobs oracle cvData (jobs.filter fun j => decide (j ≠ k)) threshold := by
  simp only [analyzeCvAndJobs, scoredJobsOf_eq]
  rw [filterMap_scoreJob_single_error]

/-- C3: the `jobs` sequence of every `AnalyzedResponse` returned by
`analyzeCvAndJobs` is sorted non-increasingly by score. -/
theorem responseJobsSortedByScoreDesc (oracle : Job → Except String ScoreResult)
    (cvData : CvProfile) (jobs : List Job) (threshold : Int) :
    ((analyzeCvAndJobs oracle cvData jobs threshold).jobs).Pairwise
      fun a b => b.score ≤ a.score := by
  simp only [analyzeCvAndJobs]
  exact pairwise_sortByScoreDesc _

/-- C4, counterexample: normalizing two raw listings that both carry the
source id `dup-1` yields two jobs with the same `jobId` — the jobIds of a
response are not pairwise distinct for every input sequence. -/
theorem duplicateSourceIdsClaimCounterexample :
    (normalizeJobs 0 "2026-10-12" [dupIdListing, dupIdListing]).map Job.jobId
        = [JobId.given "dup-1", JobId.given "dup-1"] ∧
    ¬ ((normalizeJobs 0 "2026-10-12" [dupIdListing, dupIdListing]).map Job.jobId).Nodup := by
  decide

/-- C4, amended: the normalized jobs of one request have pairwise-distinct
jobIds whenever the source-provided ids (resolved from the `id`/`jobId`
alias keys) are themselves pairwise distinct; in particular, raw listings
providing no id always receive distinct generated jobIds. -/
theorem jobIdsDistinctOfDistinctSourceIds (today : String) (raws : List RawListing) :
    ∀ fresh : Nat, (raws.filterMap providedId).Nodup →
      ((normalizeJobs fresh today raws).map Job.jobId).Nodup := by
  induction raws with
  | nil => intro fresh _; simp [normalizeJobs]
  | cons r rs ih =>
      intro fresh h
      simp only [normalizeJobs, List.map_cons]
      have htl : (rs.filterMap providedId).Nodup := by
        cases hp : providedId r with
        | some t =>
            rw [List.filterMap_cons, hp] at h
            exact (List.nodup_cons.mp h).2
        | none =>
            rw [List.filterMap_cons, hp] at h
            exact h
      refine List.nodup_cons.mpr ⟨?_, ih (fresh + 1) htl⟩
      intro hmem
      rcases List.mem_map.mp hmem with ⟨j, hjmem, hjid⟩
      rcases jobId_shape_of_mem today rs (fresh + 1) j hjmem with ⟨s, hs, hid⟩ | ⟨m, hm, hid⟩
      · cases hp : providedId r with
        | some t =>
            rw [hid] at hjid
            have hgiven : (normalizeJobData fresh today r).jobId = JobId.given t := by
              simp [normalizeJobData, hp]
            rw [hgiven] at hjid
            injection hjid with hst
            rw [List.filterMap_cons, hp] at h
            exact (List.nodup_cons.mp h).1 (hst ▸ hs)
        | none =>
            rw [hid] at hjid
            have huuid : (normalizeJobData fresh today r).jobId = JobId.uuid fresh := by
              simp [normalizeJobData, hp]
            rw [huuid] at hjid
            cases hjid
      · cases hp : providedId r with
        | some t =>
            rw [hid] at hjid
            have hgiven : (normalizeJobData fresh today r).jobId = JobId.given t := by
              simp [normalizeJobData, hp]
            rw [hgiven] at hjid
            cases hjid
        | none =>
            rw [hid] at hjid
            have huuid : (normalizeJobData fresh today r).jobId = JobId.uuid fresh := by
              simp [normalizeJobData, hp]
            rw [huuid] at hjid
            injection hjid with hmf
            rw [hmf] at hm
            exact absurd hm (Nat.not_succ_le_self fresh)

/-- Witness for the amended C4: two raw listings with no id at all produce
two distinct generated jobIds. -/
theorem jobIdsDistinctOfDistinctSourceIdsWitness :
    ((normalizeJobs 0 "2026-10-12" [emptyRawListing, emptyRawListing]).map Job.jobId).Nodup :=
  jobIdsDistinctOfDistinctSourceIds "2026-10-12" [emptyRawListing, emptyRawListing] 0 (by decide)

/-- C5, counterexample: a raw listing providing the job URL only under the
`jobUrl` alias key and no `applyUrl` normalizes to a job whose `applyUrl`
is `""` while its `jobUrl` is the alias value — `applyUrl` does not equal
the job's resolved `jobUrl` for that alias. -/
theorem applyUrlJobUrlAliasCounterexample :
    jobUrlAliasOnlyListing.applyUrl = none ∧
    (normalizeJobData 0 "2026-10-12" jobUrlAliasOnlyListing).jobUrl
        = "https://example.com/job/1" ∧
    (normalizeJobData 0 "2026-10-12" jobUrlAliasOnlyListing).applyUrl = "" ∧
    (normalizeJobData 0 "2026-10-12" jobUrlAliasOnlyListing).applyUrl
        ≠ (normalizeJobData 0 "2026-10-12" jobUrlAliasOnlyListing).jobUrl := by
  decide

/-- C5, amended: for a raw listing providing no `applyUrl` value, the
normalized `applyUrl` falls back to the raw `url` key (then to `""`), so
it equals the job's `jobUrl` whenever the job URL is resolved from the
`url` key or defaulted — but not when it is resolved only from the
`jobUrl` alias.  `normalizeJobData` is total, and a listing missing every
field gets every documented default. -/
theorem applyUrlFallsBackToUrlKey (fresh : Nat) (today : String) (raw : RawListing)
    (h : truthy raw.applyUrl = false) :
    (normalizeJobData fresh today raw).applyUrl = resolve1 raw.url "" ∧
    (truthy raw.url = true ∨ truthy raw.jobUrl = false →
      (normalizeJobData fresh today raw).applyUrl = (normalizeJobData fresh today raw).jobUrl) ∧
    normalizeJobData fresh today emptyRawListing
      = { jobId := JobId.uuid fresh, companyName := "Unknown Company", companyLogo := none,
          jobTitle := "Untitled Role", jobUrl := "", applyUrl := "", description := "",
          scrapedAt := today } := by
  refine ⟨?_, ?_, ?_⟩
  · simp [normalizeJobData, resolve2, resolve1, h]
  · intro hc
    rcases hc with hu | hju
    · simp [normalizeJobData, resolve2, resolve1, h, hu]
    · by_cases hu : truthy raw.url
      · simp [normalizeJobData, resolve2, resolve1, h, hu]
      · simp [normalizeJobData, resolve2, resolve1, h, hu, hju]
  · simp [normalizeJobData, emptyRawListing, providedId, resolve2, resolve1, resolveOpt, truthy]

/-- Witness for the amended C5: a listing with the job URL under the `url`
key and no `applyUrl` gets `applyUrl = jobUrl`. -/
theorem applyUrlFallsBackToUrlKeyWitness :
    truthy urlOnlyListing.applyUrl = false ∧
    (normalizeJobData 3 "2026-02-02" urlOnlyListing).applyUrl
        = (normalizeJobData 3 "2026-02-02" urlOnlyListing).jobUrl :=
  ⟨by decide,
    (applyUrlFallsBackToUrlKey 3 "2026-02-02" urlOnlyListing (by decide)).2.1
      (Or.inl (by decide))⟩

/-- C6: the listing source adapter performs one fixed delay per poll while
the status is in `{RUNNING, READY}` (the loop starts from the hardcoded
initial status `RUNNING`).  For the observed status sequence
RUNNING → RUNNING → SUCCEEDED (initial status, then two polled statuses)
it returns the dataset items after exactly 2 delays; for
RUNNING → FAILED it throws the run-failure error carrying the observed
status `FAILED` after 1 delay. -/
theorem scrapePollScenarios (searchUrl : String) (maxItems : Int) (rest : List String)
    (items : List RawListing) :
    (scrapeLinkedInJobs searchUrl maxItems ("RUNNING" :: "SUCCEEDED" :: rest) items).2
        = some (2, .ok items) ∧
    (scrapeLinkedInJobs searchUrl maxItems ("FAILED" :: rest) items).2
        = some (1, .error "Apify run failed with status: FAILED") := by
  cases rest with
  | nil => exact ⟨rfl, rfl⟩
  | cons p ps => exact ⟨rfl, rfl⟩

/-- C7: the endpoint's threshold parsing `parseInt(scoreThreshold) || 60`
conflates the valid caller-supplied threshold `0` with an absent field:
a supplied `0` yields an effective threshold of 60, not 0 (the absent-field
defaults 50 and 60 themselves are as documented). -/
theorem scoreThresholdZeroFallsBackToDefault :
    effectiveScoreThreshold (some 0) = 60 ∧ effectiveScoreThreshold (some 0) ≠ 0 ∧
    effectiveScoreThreshold none = 60 ∧ effectiveMaxJobs none = 50 ∧
    effectiveMaxJobs (some 0) = 50 := by
  decide

/-- C8: the count sent to the listing provider in the start-call body is
`min(maxItems, 100)` — both as `maxItems` and as `limit` — so it never
exceeds the hard ceiling 100, and a request for 500 items sends 100. -/
theorem scrapeCapsItemCountAt100 (searchUrl : String) (maxItems : Int) (polls : List String)
    (items : List RawListing) :
    (scrapeLinkedInJobs searchUrl maxItems polls items).1.maxItems = min maxItems 100 ∧
    (scrapeLinkedInJobs searchUrl maxItems polls items).1.limit = min maxItems 100 ∧
    (scrapeLinkedInJobs searchUrl maxItems polls items).1.maxItems ≤ 100 ∧
    (scrapeLinkedInJobs searchUrl 500 polls items).1.maxItems = 100 ∧
    (scrapeLinkedInJobs searchUrl 500 polls items).1.limit = 100 := by
  refine ⟨rfl, rfl, min_le_right maxItems 100, ?_, ?_⟩ <;>
    show min (500 : Int) 100 = 100 <;> norm_num

/-- C9: whenever the decoder selected for the request's mime type throws
inside `extractText` — any mime type, any cause — the error is re-raised
as the single user-facing message `Failed to parse CV file.`, and an error
leaving `extractText` is never anything but that fixed message (the
internal parser error does not reach the caller). -/
theorem extractTextDecodeFailureUserMessage (mimeType : String)
    (pdfDecode wordDecode utf8Decode : Except String String) :
    (∀ cause, selectDecoder mimeType pdfDecode wordDecode utf8Decode = .error cause →
      extractText mimeType pdfDecode wordDecode utf8Decode
        = .error "Failed to parse CV file.") ∧
    (∀ msg, extractText mimeType pdfDecode wordDecode utf8Decode = .error msg →
      msg = "Failed to parse CV file.") := by
  cases h : selectDecoder mimeType pdfDecode wordDecode utf8Decode with
  | ok t =>
      constructor
      · intro cause hc
        exact Except.noConfusion hc
      · intro msg hmsg
        simp [extractText, h] at hmsg
  | error cause0 =>
      constructor
      · intro cause _
        simp [extractText, h]
      · intro msg hmsg
        simp [extractText, h] at hmsg
        exact hmsg.symm

/-- Witness for C9: a PDF decode failure with an internal cause: the
caller sees only the fixed message. -/
theorem extractTextDecodeFailureUserMessageWitness :
    extractText "application/pdf" (.error "bad xref table") (.ok "") (.ok "plain")
      = .error "Failed to parse CV file." :=
  (extractTextDecodeFailureUserMessage "application/pdf"
    (.error "bad xref table") (.ok "") (.ok "plain")).1 "bad xref table" rfl

/-- C10: whenever a CV file was uploaded, the `/api/analyze` handler — on
the success path and on every failure path — removes the uploaded temp
file and does so before the response is sent: the event trace is exactly
the unlink followed by the response, and the file no longer exists when
the handler finishes. -/
theorem cvFileRemovedBeforeResponse (extractRes : Except String String)
    (scrapeRes : Except String (List RawListing))
    (analysisRes : Except String AnalyzedResponse) :
    (analyzeEndpointTrace true extractRes scrapeRes analysisRes).cvFileExists = false ∧
    ∃ code, (analyzeEndpointTrace true extractRes scrapeRes analysisRes).events
        = [Ev.unlink, Ev.respond code] := by
  cases extractRes <;> cases scrapeRes <;> cases analysisRes <;> exact ⟨rfl, _, rfl⟩

end JobScout
